import Mathlib

/-!
Verification of the notecognito core (`src/core/notecognito.h`).

The repository ships only the C header declaring the foreign-function
surface of the ConfigManager; the implementation behind it is not part of
the source tree.  The data model and the behaviour of each operation are
therefore modelled from the specification (spec.md), faithful to its words:
nine text slots keyed by the integers 1..9, a launch-on-startup flag, and
the four validated operations plus the JSON projection.
-/

namespace Notecognito

/-- Result type for FFI functions, from `FfiResult` in the header: a success
flag and an error message that is present exactly on failure. -/
structure FfiResult where
  success : Bool
  error_message : Option String
deriving Repr, DecidableEq

/-- Modelled from the spec: the ConfigManager aggregate (the header leaves
`struct ConfigManager` opaque).  It owns the nine notecard slots — kept as an
association list from slot identifier to text content, so that the invariant
"exactly nine slots with identifiers 1..9" is a provable property of the
state rather than a typing artifact — and the launch-on-startup flag. -/
structure ConfigManager where
  slots : List (Int × String)
  launch_on_startup : Bool
deriving Repr, DecidableEq

/-- Modelled from the spec: the slot-identifier validation rule `id ∈ [1,9]`. -/
def validSlotId (id : Int) : Bool :=
  1 ≤ id && id ≤ 9

/-- Modelled from the spec: `notecognito_config_manager_new` — a fresh
manager with all nine slots empty and the startup flag false. -/
def notecognito_config_manager_new : ConfigManager :=
  { slots := [(1, ""), (2, ""), (3, ""), (4, ""), (5, ""), (6, ""), (7, ""), (8, ""), (9, "")],
    launch_on_startup := false }

/-- Replace the content stored under key `id`, leaving every other entry
untouched. -/
def updateSlots (slots : List (Int × String)) (id : Int) (content : String) :
    List (Int × String) :=
  slots.map (fun p => if p.1 = id then (p.1, content) else p)

/-- Modelled from the spec: `notecognito_update_notecard` — validates
`id ∈ [1,9]`; on success replaces slot `id`'s content and returns success;
on an id outside [1,9] returns failure with a human-readable message
describing the valid range and leaves the manager unchanged. -/
def notecognito_update_notecard (m : ConfigManager) (id : Int) (content : String) :
    FfiResult × ConfigManager :=
  if validSlotId id then
    ({ success := true, error_message := none },
     { m with slots := updateSlots m.slots id content })
  else
    ({ success := false,
       error_message := some "Invalid notecard id: must be between 1 and 9" }, m)

/-- Modelled from the spec: `notecognito_get_notecard_content` — returns the
text stored in slot `id`; an invalid id yields the absent sentinel (`none`),
distinguishable from a present empty string.  Read-only: it returns no new
manager state. -/
def notecognito_get_notecard_content (m : ConfigManager) (id : Int) : Option String :=
  if validSlotId id then
    (m.slots.find? (fun p => p.1 == id)).map Prod.snd
  else
    none

/-- JSON escaping for one character of slot content. -/
def escapeChar (c : Char) : String :=
  if c = '"' then "\\\""
  else if c = '\\' then "\\\\"
  else if c = '\n' then "\\n"
  else String.singleton c

/-- JSON escaping for a text value. -/
def escapeJsonString (s : String) : String :=
  String.join (s.data.map escapeChar)

/-- One `"id":"content"` member of the JSON object. -/
def renderSlot (p : Int × String) : String :=
  "\"" ++ toString p.1 ++ "\":\"" ++ escapeJsonString p.2 ++ "\""

/-- The `"launch_on_startup":bool` member of the JSON object. -/
def renderFlag (b : Bool) : String :=
  "\"launch_on_startup\":" ++ (if b then "true" else "false")

/-- Modelled from the spec: `notecognito_get_config_json` — a deterministic
serialization of the whole state as a JSON object: the nine slots by id in
the order stored (ascending under the invariant), then the startup flag. -/
def notecognito_get_config_json (m : ConfigManager) : String :=
  "\x7b" ++ String.intercalate "," (m.slots.map renderSlot ++ [renderFlag m.launch_on_startup])
    ++ "\x7d"

/-- Modelled from the spec: `notecognito_set_launch_on_startup` — stores the
boolean flag and always succeeds at the core level. -/
def notecognito_set_launch_on_startup (m : ConfigManager) (enabled : Bool) :
    FfiResult × ConfigManager :=
  ({ success := true, error_message := none },
   { m with launch_on_startup := enabled })

/-- The structural invariant of §3: the manager holds exactly nine slots,
with identifiers 1 through 9 in ascending order. -/
def wf (m : ConfigManager) : Prop :=
  m.slots.map Prod.fst = [1, 2, 3, 4, 5, 6, 7, 8, 9]

instance (m : ConfigManager) : Decidable (wf m) := by
  unfold wf; infer_instance

theorem validSlotId_iff (id : Int) : validSlotId id = true ↔ 1 ≤ id ∧ id ≤ 9 := by
  simp [validSlotId]

/-- A well-formed manager's slot list is literally nine entries keyed 1..9. -/
theorem wf_decomp (m : ConfigManager) (h : wf m) :
    ∃ s1 s2 s3 s4 s5 s6 s7 s8 s9,
      m.slots = [(1, s1), (2, s2), (3, s3), (4, s4), (5, s5), (6, s6), (7, s7), (8, s8), (9, s9)] := by
  rcases m with ⟨slots, flag⟩
  unfold wf at h
  simp only at h ⊢
  rcases slots with _ | ⟨⟨k1, s1⟩, slots⟩
  · simp at h
  rcases slots with _ | ⟨⟨k2, s2⟩, slots⟩
  · simp at h
  rcases slots with _ | ⟨⟨k3, s3⟩, slots⟩
  · simp at h
  rcases slots with _ | ⟨⟨k4, s4⟩, slots⟩
  · simp at h
  rcases slots with _ | ⟨⟨k5, s5⟩, slots⟩
  · simp at h
  rcases slots with _ | ⟨⟨k6, s6⟩, slots⟩
  · simp at h
  rcases slots with _ | ⟨⟨k7, s7⟩, slots⟩
  · simp at h
  rcases slots with _ | ⟨⟨k8, s8⟩, slots⟩
  · simp at h
  rcases slots with _ | ⟨⟨k9, s9⟩, slots⟩
  · simp at h
  rcases slots with _ | ⟨⟨k10, s10⟩, slots⟩
  · simp only [List.map_cons, List.map_nil, List.cons.injEq, and_true] at h
    obtain ⟨rfl, rfl, rfl, rfl, rfl, rfl, rfl, rfl, rfl⟩ := h
    exact ⟨s1, s2, s3, s4, s5, s6, s7, s8, s9, rfl⟩
  · simp at h

/-- String concatenation is associative (via the underlying character lists). -/
theorem string_append_assoc (a b c : String) : a ++ b ++ c = a ++ (b ++ c) := by
  rcases a with ⟨a⟩; rcases b with ⟨b⟩; rcases c with ⟨c⟩
  show String.append (String.append ⟨a⟩ ⟨b⟩) ⟨c⟩ = String.append ⟨a⟩ (String.append ⟨b⟩ ⟨c⟩)
  simp [String.append, List.append_assoc]

/-- Updating a slot never changes the list of slot identifiers. -/
theorem updateSlots_keys (l : List (Int × String)) (id : Int) (c : String) :
    (updateSlots l id c).map Prod.fst = l.map Prod.fst := by
  induction l with
  | nil => rfl
  | cons a t ih =>
    unfold updateSlots at ih ⊢
    simp only [List.map_cons, ih]
    by_cases h : a.1 = id <;> simp [h]

/-- Looking up a key other than the updated one is unaffected by the update. -/
theorem find_updateSlots_ne (l : List (Int × String)) (id j : Int) (c : String)
    (h : j ≠ id) :
    (updateSlots l id c).find? (fun p => p.1 == j) = l.find? (fun p => p.1 == j) := by
  induction l with
  | nil => rfl
  | cons a t ih =>
    obtain ⟨k, v⟩ := a
    unfold updateSlots at ih ⊢
    simp only [List.map_cons]
    by_cases hk : k = id
    · subst hk
      have haj : (k == j) = false := by
        simp only [beq_eq_false_iff_ne, ne_eq]
        exact fun e => h e.symm
      simp [List.find?, haj, ih]
    · by_cases haj : k = j
      · subst haj
        simp [List.find?, hk]
      · have haj2 : (k == j) = false := by simp [haj]
        simp [List.find?, hk, haj2, ih]

/-- C1: for every slot id in [1,9] and every text content (the empty string
included), `UpdateNotecard` followed by `GetNotecardContent` on the same id
returns exactly that content. -/
theorem update_then_get_roundtrip (m : ConfigManager) (id : Int) (content : String)
    (hm : wf m) (h1 : 1 ≤ id) (h9 : id ≤ 9) :
    notecognito_get_notecard_content (notecognito_update_notecard m id content).2 id
      = some content := by
  obtain ⟨s1, s2, s3, s4, s5, s6, s7, s8, s9, hs⟩ := wf_decomp m hm
  interval_cases id <;>
    simp [notecognito_update_notecard, notecognito_get_notecard_content, validSlotId,
      updateSlots, hs, List.find?]

theorem update_then_get_roundtrip_witness :
    notecognito_get_notecard_content
        (notecognito_update_notecard notecognito_config_manager_new 3 "buy milk").2 3
      = some "buy milk" :=
  update_then_get_roundtrip notecognito_config_manager_new 3 "buy milk"
    (by decide) (by decide) (by decide)

/-- C2: for every id outside [1,9] and every content, `UpdateNotecard`
returns failure carrying an error message — error_message is present exactly
when success is false, for every id — and the manager's state (all nine
slots and the startup flag) is left unchanged. -/
theorem update_invalid_id_fails (m : ConfigManager) (id : Int) (content : String)
    (h : id < 1 ∨ 9 < id) :
    (notecognito_update_notecard m id content).1.success = false ∧
    (notecognito_update_notecard m id content).1.error_message.isSome = true ∧
    (notecognito_update_notecard m id content).2 = m ∧
    (∀ j c, (notecognito_update_notecard m j c).1.error_message.isSome
        = !(notecognito_update_notecard m j c).1.success) := by
  have hv : validSlotId id = false := by
    simp only [validSlotId, Bool.and_eq_false_iff, decide_eq_false_iff_not, not_le]
    omega
  refine ⟨?_, ?_, ?_, ?_⟩
  · simp [notecognito_update_notecard, hv]
  · simp [notecognito_update_notecard, hv]
  · simp [notecognito_update_notecard, hv]
  · intro j c
    by_cases hj : validSlotId j <;> simp [notecognito_update_notecard, hj]

theorem update_invalid_id_fails_witness :
    (notecognito_update_notecard notecognito_config_manager_new 0 "x").1.success = false ∧
    (notecognito_update_notecard notecognito_config_manager_new 0 "x").2
      = notecognito_config_manager_new :=
  ⟨(update_invalid_id_fails notecognito_config_manager_new 0 "x" (by decide)).1,
   (update_invalid_id_fails notecognito_config_manager_new 0 "x" (by decide)).2.2.1⟩

/-- C3: for every id outside [1,9], `GetNotecardContent` returns the absent
sentinel `none` — distinguishable from the `some ""` a legitimately empty
valid slot yields (shown here on slot 1 of a fresh manager).  The operation
is read-only by construction: it returns only an `Option String` and no
manager state. -/
theorem get_invalid_id_absent (m : ConfigManager) (id : Int)
    (h : id < 1 ∨ 9 < id) :
    notecognito_get_notecard_content m id = none ∧
    notecognito_get_notecard_content notecognito_config_manager_new 1 = some "" := by
  have hv : validSlotId id = false := by
    simp only [validSlotId, Bool.and_eq_false_iff, decide_eq_false_iff_not, not_le]
    omega
  exact ⟨by simp [notecognito_get_notecard_content, hv], by decide⟩

theorem get_invalid_id_absent_witness :
    notecognito_get_notecard_content notecognito_config_manager_new 10 = none :=
  (get_invalid_id_absent notecognito_config_manager_new 10 (by decide)).1

/-- C4: `GetConfigJson` is deterministic for a given manager state: it is a
pure function of the state (so two consecutive calls with no intervening
mutation are byte-identical), and moreover any two well-formed managers that
agree on every observable — each slot's content and the startup flag —
serialize to byte-identical text, because the slots are kept in the stable
ascending order 1..9. -/
theorem get_config_json_deterministic (m m2 : ConfigManager)
    (hm : wf m) (hm2 : wf m2)
    (hs : ∀ id, notecognito_get_notecard_content m id
        = notecognito_get_notecard_content m2 id)
    (hf : m.launch_on_startup = m2.launch_on_startup) :
    notecognito_get_config_json m = notecognito_get_config_json m2 := by
  obtain ⟨s1, s2, s3, s4, s5, s6, s7, s8, s9, hls⟩ := wf_decomp m hm
  obtain ⟨t1, t2, t3, t4, t5, t6, t7, t8, t9, hls2⟩ := wf_decomp m2 hm2
  have e1 := hs 1
  have e2 := hs 2
  have e3 := hs 3
  have e4 := hs 4
  have e5 := hs 5
  have e6 := hs 6
  have e7 := hs 7
  have e8 := hs 8
  have e9 := hs 9
  simp [notecognito_get_notecard_content, validSlotId, hls, hls2, List.find?]
    at e1 e2 e3 e4 e5 e6 e7 e8 e9
  simp [notecognito_get_config_json, hls, hls2, hf, e1, e2, e3, e4, e5, e6, e7, e8, e9]

theorem get_config_json_deterministic_witness :
    notecognito_get_config_json notecognito_config_manager_new
      = notecognito_get_config_json notecognito_config_manager_new :=
  get_config_json_deterministic notecognito_config_manager_new
    notecognito_config_manager_new (by decide) (by decide) (fun _ => rfl) rfl

/-- C5: a fresh manager has all nine slots empty and the startup flag false,
and its JSON projection is the object with all nine slot values `""` and the
flag `false`. -/
theorem fresh_manager_state :
    notecognito_config_manager_new.slots
        = [(1, ""), (2, ""), (3, ""), (4, ""), (5, ""), (6, ""), (7, ""), (8, ""), (9, "")] ∧
    notecognito_config_manager_new.launch_on_startup = false ∧
    notecognito_get_config_json notecognito_config_manager_new
      = "\x7b\"1\":\"\",\"2\":\"\",\"3\":\"\",\"4\":\"\",\"5\":\"\",\"6\":\"\",\"7\":\"\",\"8\":\"\",\"9\":\"\",\"launch_on_startup\":false\x7d" :=
  ⟨rfl, rfl, by rfl⟩

/-- C6: for every well-formed manager state, the JSON projection is exactly
the object whose members are the nine string keys "1" through "9" in
ascending order, each mapped to that slot's current content, followed by the
startup-flag key mapped to a boolean; and the concrete scenario: after
`UpdateNotecard(3, "buy milk")` on a fresh manager the output carries
`"3":"buy milk"` with all other slots empty and the flag false. -/
theorem config_json_shape (m : ConfigManager) (hm : wf m) :
    notecognito_get_config_json m =
      "\x7b" ++ String.intercalate ","
        ([renderSlot (1, (notecognito_get_notecard_content m 1).getD ""),
          renderSlot (2, (notecognito_get_notecard_content m 2).getD ""),
          renderSlot (3, (notecognito_get_notecard_content m 3).getD ""),
          renderSlot (4, (notecognito_get_notecard_content m 4).getD ""),
          renderSlot (5, (notecognito_get_notecard_content m 5).getD ""),
          renderSlot (6, (notecognito_get_notecard_content m 6).getD ""),
          renderSlot (7, (notecognito_get_notecard_content m 7).getD ""),
          renderSlot (8, (notecognito_get_notecard_content m 8).getD ""),
          renderSlot (9, (notecognito_get_notecard_content m 9).getD "")]
          ++ [renderFlag m.launch_on_startup]) ++ "\x7d" ∧
    notecognito_get_config_json
        (notecognito_update_notecard notecognito_config_manager_new 3 "buy milk").2
      = "\x7b\"1\":\"\",\"2\":\"\",\"3\":\"buy milk\",\"4\":\"\",\"5\":\"\",\"6\":\"\",\"7\":\"\",\"8\":\"\",\"9\":\"\",\"launch_on_startup\":false\x7d" := by
  obtain ⟨s1, s2, s3, s4, s5, s6, s7, s8, s9, hls⟩ := wf_decomp m hm
  constructor
  · simp [notecognito_get_config_json, notecognito_get_notecard_content, validSlotId,
      hls, List.find?]
  · rfl

theorem config_json_shape_witness :
    notecognito_get_config_json
        (notecognito_update_notecard notecognito_config_manager_new 3 "buy milk").2
      = "\x7b\"1\":\"\",\"2\":\"\",\"3\":\"buy milk\",\"4\":\"\",\"5\":\"\",\"6\":\"\",\"7\":\"\",\"8\":\"\",\"9\":\"\",\"launch_on_startup\":false\x7d" :=
  (config_json_shape notecognito_config_manager_new (by decide)).2

/-- The tail-accumulating worker of `String.intercalate` always keeps the last
element of the list as a suffix of its result. -/
theorem intercalate_go_last (sep x acc : String) (l : List String) :
    ∃ p, String.intercalate.go acc sep (l ++ [x]) = p ++ x := by
  induction l generalizing acc with
  | nil => exact ⟨acc ++ sep, rfl⟩
  | cons a as ih => exact ih (acc ++ sep ++ a)

/-- The serialized object always ends with the flag member and the closing
brace, so the JSON output reflects the current flag value. -/
theorem json_flag_suffix (m : ConfigManager) :
    ∃ p, notecognito_get_config_json m
        = p ++ (renderFlag m.launch_on_startup ++ "\x7d") := by
  unfold notecognito_get_config_json
  cases hsl : m.slots.map renderSlot with
  | nil =>
    refine ⟨"\x7b", ?_⟩
    rw [string_append_assoc]
    rfl
  | cons a as =>
    obtain ⟨p, hp⟩ := intercalate_go_last "," (renderFlag m.launch_on_startup) a as
    refine ⟨"\x7b" ++ p, ?_⟩
    have h2 : String.intercalate "," (a :: as ++ [renderFlag m.launch_on_startup])
        = p ++ renderFlag m.launch_on_startup := hp
    rw [h2]
    simp [string_append_assoc]

/-- C7: for every manager state and boolean, `SetLaunchOnStartup` succeeds
(success true, no error message), stores exactly the requested flag value
while keeping the slots, and a subsequent `GetConfigJson` reflects the new
flag value: its output ends with the flag member rendered from `enabled`. -/
theorem set_launch_on_startup_ok (m : ConfigManager) (enabled : Bool) :
    (notecognito_set_launch_on_startup m enabled).1.success = true ∧
    (notecognito_set_launch_on_startup m enabled).1.error_message = none ∧
    (notecognito_set_launch_on_startup m enabled).2.launch_on_startup = enabled ∧
    ∃ p, notecognito_get_config_json (notecognito_set_launch_on_startup m enabled).2
        = p ++ (renderFlag enabled ++ "\x7d") :=
  ⟨rfl, rfl, rfl, json_flag_suffix (notecognito_set_launch_on_startup m enabled).2⟩

/-- C8: every operation preserves the structural invariant that the manager
holds exactly nine slots with identifiers 1 through 9: creation establishes
it, and `UpdateNotecard` (for any id, in range or not) and
`SetLaunchOnStartup` preserve it — no slot is ever added, removed, or keyed
outside [1,9]. -/
theorem operations_preserve_slot_invariant (m : ConfigManager) (id : Int)
    (c : String) (b : Bool) (hm : wf m) :
    wf notecognito_config_manager_new ∧
    wf (notecognito_update_notecard m id c).2 ∧
    wf (notecognito_set_launch_on_startup m b).2 := by
  refine ⟨by decide, ?_, ?_⟩
  · unfold notecognito_update_notecard
    by_cases hv : validSlotId id
    · simp only [hv, if_true]
      unfold wf at hm ⊢
      simpa [updateSlots_keys] using hm
    · simpa [hv] using hm
  · simpa [notecognito_set_launch_on_startup, wf] using hm

theorem operations_preserve_slot_invariant_witness :
    wf (notecognito_update_notecard notecognito_config_manager_new 5 "note").2 :=
  (operations_preserve_slot_invariant notecognito_config_manager_new 5 "note" true
    (by decide)).2.1

/-- C10: frame conditions — `UpdateNotecard` with an in-range id changes only
that slot, leaving every other slot's observable content and the startup flag
unchanged; `SetLaunchOnStartup` changes only the flag, leaving the slot list
(and so every slot's content) unchanged. -/
theorem update_and_set_frame (m : ConfigManager) (id : Int) (c : String) (b : Bool)
    (h1 : 1 ≤ id) (h9 : id ≤ 9) :
    (notecognito_update_notecard m id c).2.launch_on_startup = m.launch_on_startup ∧
    (∀ j, j ≠ id →
        notecognito_get_notecard_content (notecognito_update_notecard m id c).2 j
          = notecognito_get_notecard_content m j) ∧
    (notecognito_set_launch_on_startup m b).2.slots = m.slots ∧
    (∀ j, notecognito_get_notecard_content (notecognito_set_launch_on_startup m b).2 j
        = notecognito_get_notecard_content m j) := by
  have hv : validSlotId id = true := (validSlotId_iff id).mpr ⟨h1, h9⟩
  refine ⟨?_, ?_, rfl, fun j => rfl⟩
  · simp [notecognito_update_notecard, hv]
  · intro j hj
    simp only [notecognito_update_notecard, hv, if_true]
    unfold notecognito_get_notecard_content
    by_cases hvj : validSlotId j
    · simp only [hvj, if_true]
      rw [find_updateSlots_ne _ _ _ _ hj]
    · simp [hvj]

theorem update_and_set_frame_witness :
    (notecognito_update_notecard notecognito_config_manager_new 3 "note").2.launch_on_startup
      = notecognito_config_manager_new.launch_on_startup :=
  (update_and_set_frame notecognito_config_manager_new 3 "note" true
    (by decide) (by decide)).1

end Notecognito
